import Mathlib

/-!
Shallow embedding of the NFWS-Moderations-API core (Go) in Lean 4.

Translated components:
* Stats aggregation (`updateStats`, `updateTotalScans`, `GetStats`) from
  internal/services/nsfw_service.go.
* Image acquisition (`stripDataURL`, `base64ToBytes`, `urlToBytes`,
  `getImageData`) from the same file; the external base64 decoder and the
  HTTP client are oracle parameters, the surrounding checks are translated.
* Scan orchestration (`ScanImage`, `ScanBatch`, `DetectImage`, `IsReady`)
  from the same file; inference is an oracle parameter where the claims
  quantify over arbitrary failures, and embedded concretely
  (`preprocessAndRunInference`, `RunInference`) from
  internal/services/onnx_service.go where the claim is about that path.
* The readiness HTTP handler (`Ready`) from internal/handlers.
* The sliding-window rate limiter (`rateLimit`) from
  internal/middleware/rate_limit.go.

Conventions: time instants are `Int` (Go `time.Time` on a millisecond
line); Go `time.Time` zero values are `Option.none`; byte payloads are
`List Nat`; Go `int64` statistics counters are `Nat` because every
mutation in the source adds a non-negative quantity; float scores are
`Rat` (no claim depends on floating-point rounding); Go `error` results
are `Except GoError`; a Go runtime panic is the `Outcome.panicked`
constructor.
-/

namespace NFWS

/-- Service statistics (struct `Stats` in nsfw_service.go). -/
structure Stats where
  totalScans : Nat
  nsfwDetected : Nat
  totalProcessingTimeMs : Nat
  deriving Repr, DecidableEq

/-- Embeds `updateStats` (nsfw_service.go): increments `TotalScans`, adds the
processing time, and increments `NSFWDetected` when `isNSFW` holds. -/
def updateStats (s : Stats) (processingTimeMs : Nat) (isNSFW : Bool) : Stats :=
  { totalScans := s.totalScans + 1
    totalProcessingTimeMs := s.totalProcessingTimeMs + processingTimeMs
    nsfwDetected := if isNSFW then s.nsfwDetected + 1 else s.nsfwDetected }

/-- Embeds `updateTotalScans` (nsfw_service.go): adds `count` to `TotalScans`
and the elapsed time to the cumulative processing time. -/
def updateTotalScans (s : Stats) (count : Nat) (totalProcessingTimeMs : Nat) : Stats :=
  { s with
    totalScans := s.totalScans + count
    totalProcessingTimeMs := s.totalProcessingTimeMs + totalProcessingTimeMs }

/-- Response shape of GET /stats (struct `StatsResponse` in internal/models). -/
structure StatsResponse where
  totalScans : Nat
  nsfwDetected : Nat
  avgResponseTimeMs : Rat
  deriving Repr, DecidableEq

/-- Embeds `GetStats` (nsfw_service.go): a read-only snapshot; the average is
cumulative time over total scans, and 0 when no scan was recorded. -/
def GetStats (s : Stats) : StatsResponse :=
  { totalScans := s.totalScans
    nsfwDetected := s.nsfwDetected
    avgResponseTimeMs :=
      if s.totalScans > 0 then (s.totalProcessingTimeMs : Rat) / (s.totalScans : Rat) else 0 }

/-- Structured rendering of every `fmt.Errorf` site reached by the embedded
code, one constructor per site, carrying the formatted payload. -/
inductive GoError where
  | modelNotFound (m : String)
  | notDetectionModel (m : String)
  | missingImageSource
  | decodeBase64 (e : String)
  | payloadTooLarge (mb : Nat)
  | downloadFailed (e : String)
  | downloadStatus (code : Nat)
  | rateLimited
  | onnxModelNotFound (m : String)
  | preprocessingFailed (e : String)
  | postprocessingFailed (e : String)
  | insufficientOutputs
  | ctxCanceled
  | imageDataFailed (e : GoError)
  | invalidImageFormat (e : String)
  | inferenceFailed (e : GoError)
  deriving Repr, DecidableEq

/-- Result of a Go call that may return a value, return an error, or panic. -/
inductive Outcome (α : Type) where
  | ok (a : α)
  | err (e : GoError)
  | panicked (msg : String)
  deriving Repr, DecidableEq

/-! ## Image acquisition (nsfw_service.go) -/

/-- Characters of a string after its first comma, or `none` if no comma. -/
def afterComma : List Char → Option (List Char)
  | [] => none
  | c :: r => if c = ',' then some r else afterComma r

/-- The data-URL stripping step of `base64ToBytes`: Go drops everything up to
and including the first comma when one is present, else keeps the string. -/
def stripDataURL (s : String) : String :=
  match afterComma s.data with
  | some r => String.mk r
  | none => s

/-- Embeds `base64ToBytes` (nsfw_service.go). The stdlib decoder
`base64.StdEncoding.DecodeString` is the oracle `b64raw`; the prefix
stripping and the decoded-size ceiling are translated from the source. -/
def base64ToBytes (b64raw : String → Except String (List Nat)) (maxMB : Nat)
    (s : String) : Except GoError (List Nat) :=
  match b64raw (stripDataURL s) with
  | .error e => .error (.decodeBase64 e)
  | .ok data =>
    if data.length > maxMB * 1024 * 1024 then .error (.payloadTooLarge maxMB)
    else .ok data

/-- An HTTP response as seen by `urlToBytes`: status code, the declared
Content-Length (-1 when unknown, as in Go), and the full body stream. -/
structure HTTPResp where
  statusCode : Nat
  contentLength : Int
  body : List Nat
  deriving Repr, DecidableEq

/-- Embeds `urlToBytes` (nsfw_service.go). The HTTP client is the oracle
`httpGet`; the status check, the Content-Length pre-check, the
`io.LimitReader` cap of limit+1 bytes and the realized-size check are
translated from the source. -/
def urlToBytes (httpGet : String → Except String HTTPResp) (maxMB : Nat)
    (url : String) : Except GoError (List Nat) :=
  match httpGet url with
  | .error e => .error (.downloadFailed e)
  | .ok resp =>
    if resp.statusCode ≠ 200 then .error (.downloadStatus resp.statusCode)
    else if resp.contentLength > (maxMB * 1024 * 1024 : Int) then
      .error (.payloadTooLarge maxMB)
    else
      let data := resp.body.take (maxMB * 1024 * 1024 + 1)
      if data.length > maxMB * 1024 * 1024 then .error (.payloadTooLarge maxMB)
      else .ok data

/-- Embeds `getImageData` (nsfw_service.go): inline base64 first, else the
URL, else the missing-source error. -/
def getImageData (b64raw : String → Except String (List Nat))
    (httpGet : String → Except String HTTPResp) (maxMB : Nat)
    (base64Str urlStr : String) : Except GoError (List Nat) :=
  if base64Str ≠ "" then base64ToBytes b64raw maxMB base64Str
  else if urlStr ≠ "" then urlToBytes httpGet maxMB urlStr
  else .error .missingImageSource

/-! ## Request and response shapes (internal/models) -/

/-- Struct `ScanRequest`. -/
structure ScanRequest where
  model : String
  imageBase64 : String
  imageURL : String
  deriving Repr, DecidableEq

/-- Struct `ScanResponse` (detections omitted: never populated on the
embedded paths). -/
structure ScanResponse where
  model : String
  nsfwScore : Rat
  safeScore : Rat
  isNSFW : Bool
  confidence : Rat
  processingTimeMs : Nat
  deriving Repr, DecidableEq

/-- Struct `BatchImageItem`. -/
structure BatchImageItem where
  id : String
  imageBase64 : String
  imageURL : String
  deriving Repr, DecidableEq

/-- Struct `BatchScanRequest`. -/
structure BatchScanRequest where
  model : String
  images : List BatchImageItem
  deriving Repr, DecidableEq

/-- Struct `BatchScanResult`. -/
structure BatchScanResult where
  id : String
  nsfwScore : Rat
  isNSFW : Bool
  processingTimeMs : Nat
  deriving Repr, DecidableEq

/-- Struct `BatchScanResponse`. -/
structure BatchScanResponse where
  results : List BatchScanResult
  deriving Repr, DecidableEq

/-- Struct `ReadyResponse`. -/
structure ReadyResponse where
  status : String
  deriving Repr, DecidableEq

/-! ## Scan orchestration (nsfw_service.go)

The inference collaborator (`RunInference` as seen from the orchestrator)
is an oracle parameter `infer`, because the claims quantify over arbitrary
acquisition/inference failure patterns; the concrete embedded inference
path appears further below for the claim about the ONNX service itself. -/

/-- Embeds `IsReady` (nsfw_service.go): at least one loaded model. -/
def IsReady (loadedModels : List String) : Bool :=
  loadedModels.length > 0

/-- Embeds the HTTP handler `Ready` (internal/handlers): it returns the
fixed body `{"status": "ok"}` and consults no service state. -/
def Ready : ReadyResponse :=
  { status := "ok" }

/-- Embeds `ScanImage` (nsfw_service.go). `deferElapsedMs` is the wall-clock
time the deferred function observes; the deferred `updateStats` call runs on
every exit path, panics included, and is the last stats mutation. The Go
expression `imgData[:512]` panics when the payload is shorter than 512
bytes, rendered as `Outcome.panicked`. -/
def ScanImage (b64raw : String → Except String (List Nat))
    (httpGet : String → Except String HTTPResp)
    (decodeCfg : List Nat → Except String Unit)
    (infer : String → List Nat → Except GoError ScanResponse)
    (loadedModels : List String) (maxMB : Nat) (st : Stats)
    (req : ScanRequest) (deferElapsedMs : Nat) : Outcome ScanResponse × Stats :=
  let exit := fun (r : Outcome ScanResponse) (st' : Stats) =>
    (r, updateStats st' deferElapsedMs false)
  if ¬ loadedModels.contains req.model then
    exit (.err (.modelNotFound req.model)) st
  else
    match getImageData b64raw httpGet maxMB req.imageBase64 req.imageURL with
    | .error e => exit (.err (.imageDataFailed e)) st
    | .ok imgData =>
      if imgData.length < 512 then
        exit (.panicked "runtime error: slice bounds out of range") st
      else
        match decodeCfg (imgData.take 512) with
        | .error e => exit (.err (.invalidImageFormat e)) st
        | .ok _ =>
          match infer req.model imgData with
          | .error e => exit (.err (.inferenceFailed e)) st
          | .ok response =>
            exit (.ok response)
              (updateStats st response.processingTimeMs response.isNSFW)

/-- One iteration of the `ScanBatch` item loop: per-item acquisition and
inference, a failed item is skipped, a successful one is appended to the
results and immediately recorded through `updateStats`. -/
def scanBatchStep (b64raw : String → Except String (List Nat))
    (httpGet : String → Except String HTTPResp)
    (infer : String → List Nat → Except GoError ScanResponse)
    (maxMB : Nat) (model : String) (acc : List BatchScanResult × Stats)
    (imgReq : BatchImageItem) : List BatchScanResult × Stats :=
  let imgData : Except GoError (List Nat) :=
    if imgReq.imageBase64 ≠ "" then base64ToBytes b64raw maxMB imgReq.imageBase64
    else if imgReq.imageURL ≠ "" then urlToBytes httpGet maxMB imgReq.imageURL
    else .error .missingImageSource
  match imgData with
  | .error _ => acc
  | .ok data =>
    match infer model data with
    | .error _ => acc
    | .ok response =>
      let result : BatchScanResult :=
        { id := imgReq.id
          nsfwScore := response.nsfwScore
          isNSFW := response.isNSFW
          processingTimeMs := response.processingTimeMs }
      (acc.1 ++ [result], updateStats acc.2 result.processingTimeMs result.isNSFW)

/-- Embeds `ScanBatch` (nsfw_service.go): model validated once, items
processed with partial-failure semantics, then `updateTotalScans` adds the
result count and the batch elapsed time. The deferred function in the
source computes a duration and mutates nothing. -/
def ScanBatch (b64raw : String → Except String (List Nat))
    (httpGet : String → Except String HTTPResp)
    (infer : String → List Nat → Except GoError ScanResponse)
    (loadedModels : List String) (maxMB : Nat) (st : Stats)
    (req : BatchScanRequest) (batchElapsedMs : Nat) :
    Except GoError BatchScanResponse × Stats :=
  if ¬ loadedModels.contains req.model then
    (.error (.modelNotFound req.model), st)
  else
    let folded := req.images.foldl (scanBatchStep b64raw httpGet infer maxMB req.model) ([], st)
    (.ok { results := folded.1 }, updateTotalScans folded.2 folded.1.length batchElapsedMs)

/-- Character-level prefix test, the semantics of Go `strings.HasPrefix`
restricted to the ASCII names this service uses (first argument is the
candidate prefix). -/
def hasPrefixChars : List Char → List Char → Bool
  | [], _ => true
  | _ :: _, [] => false
  | p :: ps, c :: cs => p == c && hasPrefixChars ps cs

/-- The capability test of `DetectImage`:
`strings.HasPrefix(strings.ToLower(name), "nudenet")`. -/
def isDetectionCapable (name : String) : Bool :=
  hasPrefixChars "nudenet".data (name.data.map Char.toLower)

/-- Embeds `DetectImage` (nsfw_service.go): the loaded-model scan also
requires the lower-cased name to start with "nudenet"; on failure of that
check the function returns before any image acquisition. The deferred
`updateStats` call runs on every exit path. -/
def DetectImage (b64raw : String → Except String (List Nat))
    (httpGet : String → Except String HTTPResp)
    (infer : String → List Nat → Except GoError ScanResponse)
    (loadedModels : List String) (maxMB : Nat) (st : Stats)
    (req : ScanRequest) (deferElapsedMs : Nat) : Outcome ScanResponse × Stats :=
  let exit := fun (r : Outcome ScanResponse) (st' : Stats) =>
    (r, updateStats st' deferElapsedMs false)
  if ¬ loadedModels.any (fun m => m == req.model && isDetectionCapable m) then
    exit (.err (.notDetectionModel req.model)) st
  else
    match getImageData b64raw httpGet maxMB req.imageBase64 req.imageURL with
    | .error e => exit (.err (.imageDataFailed e)) st
    | .ok imgData =>
      match infer req.model imgData with
      | .error e => exit (.err (.inferenceFailed e)) st
      | .ok response =>
        exit (.ok response)
          (updateStats st response.processingTimeMs response.isNSFW)

/-! ## ONNX runtime service (internal/services/onnx_service.go)

`NewONNXRuntimeService` installs a global token bucket
(`rate.NewLimiter(rate.Limit(10), 20)`) consulted by `limiter.Allow()` at
the head of `preprocessAndRunInference`. `Allow` succeeds exactly when at
least one whole token is available at the call instant and then consumes
one; the state below tracks the available whole tokens (20 at start,
replenished at 10 per second, which only adds tokens between calls). -/

/-- Capability routing chosen at registration in `loadModels`: the
classification pre/post pair or the NudeNet (detection) pair. -/
inductive ModelKind where
  | standard
  | nudenet
  deriving Repr, DecidableEq

/-- Whole tokens available in the global `rate.Limiter` bucket. -/
structure LimiterState where
  tokens : Nat
  deriving Repr, DecidableEq

/-- Embeds `limiter.Allow()`: take one token when available. -/
def limiterAllow (l : LimiterState) : Bool × LimiterState :=
  if l.tokens = 0 then (false, l) else (true, { tokens := l.tokens - 1 })

/-- The bucket as configured by `NewONNXRuntimeService`: burst 20, full. -/
def initialLimiter : LimiterState :=
  { tokens := 20 }

/-- Embeds `postprocessingStandard`: needs at least two outputs, reads
safe then NSFW score, confidence is the larger, `isNSFW` compares the NSFW
score against the configured threshold. Model name and time are left at
their zero values, as in the source. -/
def postprocessingStandard (threshold : Rat) (outputs : List Rat) :
    Except GoError ScanResponse :=
  match outputs with
  | safeScore :: nsfwScore :: _ =>
    .ok { model := ""
          nsfwScore := nsfwScore
          safeScore := safeScore
          isNSFW := decide (nsfwScore ≥ threshold)
          confidence := if safeScore > nsfwScore then safeScore else nsfwScore
          processingTimeMs := 0 }
  | _ => .error .insufficientOutputs

/-- Embeds `postprocessingNudeNet`: fixed placeholder scores of 1/2. -/
def postprocessingNudeNet (threshold : Rat) : Except GoError ScanResponse :=
  .ok { model := ""
        nsfwScore := 1/2
        safeScore := 1/2
        isNSFW := decide ((1 : Rat)/2 ≥ threshold)
        confidence := 1/2
        processingTimeMs := 0 }

set_option linter.unusedVariables false in
/-- Embeds `preprocessAndRunInference` (onnx_service.go). The first action
is the global limiter gate; then the model lookup; then the placeholder
`image.Decode(os.Stdin)` (the oracle `stdinDecodes` says whether it
succeeded), whose error branch returns the hard-coded mock response; on
decode success the (never-failing) preprocessing runs, the mock outputs
[3/10, 7/10] stand in for inference, and the model's postprocessing pair
finishes. `imageData` is received but, as in the source, never read. -/
def preprocessAndRunInference (threshold : Rat)
    (onnxModels : List (String × ModelKind)) (stdinDecodes : Bool)
    (l : LimiterState) (modelName : String) (imageData : List Nat) :
    Except GoError ScanResponse × LimiterState :=
  let gate := limiterAllow l
  if ¬ gate.1 then (.error .rateLimited, gate.2)
  else
    match onnxModels.lookup modelName with
    | none => (.error (.onnxModelNotFound modelName), gate.2)
    | some kind =>
      if ¬ stdinDecodes then
        (.ok { model := modelName
               nsfwScore := 3/10
               safeScore := 7/10
               isNSFW := decide ((3 : Rat)/10 ≥ threshold)
               confidence := 7/10
               processingTimeMs := 100 }, gate.2)
      else
        let outputs : List Rat := [3/10, 7/10]
        match (match kind with
               | .standard => postprocessingStandard threshold outputs
               | .nudenet => postprocessingNudeNet threshold) with
        | .error e => (.error e, gate.2)
        | .ok resp =>
          (.ok { resp with model := modelName, processingTimeMs := 100 }, gate.2)

/-- Embeds `RunInference` (onnx_service.go): an already-done context fails
immediately, otherwise `preprocessAndRunInference` runs and a successful
result gets the measured elapsed time. -/
def RunInference (threshold : Rat) (onnxModels : List (String × ModelKind))
    (stdinDecodes : Bool) (ctxDone : Bool) (l : LimiterState)
    (modelName : String) (imageData : List Nat) (elapsedMs : Nat) :
    Except GoError ScanResponse × LimiterState :=
  if ctxDone then (.error .ctxCanceled, l)
  else
    match preprocessAndRunInference threshold onnxModels stdinDecodes l modelName imageData with
    | (.error e, l') => (.error e, l')
    | (.ok r, l') => (.ok { r with processingTimeMs := elapsedMs }, l')

/-- Runs `count` consecutive inference invocations at one instant, keeping
the limiter state, and returns the outcomes in order. -/
def runInferences (threshold : Rat) (onnxModels : List (String × ModelKind))
    (stdinDecodes : Bool) (modelName : String) (imageData : List Nat) :
    LimiterState → Nat → List (Except GoError ScanResponse) × LimiterState
  | l, 0 => ([], l)
  | l, n + 1 =>
    let p := preprocessAndRunInference threshold onnxModels stdinDecodes l modelName imageData
    let q := runInferences threshold onnxModels stdinDecodes modelName imageData p.2 n
    (p.1 :: q.1, q.2)

/-! ## Rate-limiting middleware (internal/middleware/rate_limit.go)

Time instants are `Int` milliseconds; `time.Time` zero values become
`Option.none` (a zero `BlockedUntil` never blocks a present-day clock,
which `isBlocked` renders exactly). The visitors map is an association
list; `time.Now()` is read once per request. -/

/-- Struct `Visitor`: recorded request instants and the block deadline. -/
structure Visitor where
  requests : List Int
  blockedUntil : Option Int
  deriving Repr, DecidableEq

/-- The middleware state: visitors map and configuration
(limit, window, blockWindow), as held by `RateLimitMiddleware`. -/
structure RateLimiterState where
  visitors : List (String × Visitor)
  limit : Nat
  window : Int
  blockWindow : Int
  deriving Repr, DecidableEq

/-- The two outcomes of admission. -/
inductive Decision where
  | allowed
  | blocked
  deriving Repr, DecidableEq

/-- The check `time.Now().Before(visitor.BlockedUntil)`. -/
def isBlocked (now : Int) (v : Visitor) : Bool :=
  match v.blockedUntil with
  | some b => decide (now < b)
  | none => false

/-- Insert-or-replace on the visitors association list. -/
def setVisitor (m : List (String × Visitor)) (ip : String) (v : Visitor) :
    List (String × Visitor) :=
  match m with
  | [] => [(ip, v)]
  | (k, w) :: rest =>
    if k = ip then (k, v) :: rest else (k, w) :: setVisitor rest ip v

/-- The un-blocked tail of `RateLimit`: prune request instants outside the
window, then either start a block (at or above the limit) or record `now`
and admit. -/
def rateLimitCore (st : RateLimiterState) (ip : String) (now : Int)
    (v : Visitor) : Decision × RateLimiterState :=
  let pruned := v.requests.filter (fun t => decide (now - st.window < t))
  if st.limit ≤ pruned.length then
    (.blocked,
     { st with
       visitors := setVisitor st.visitors ip ⟨pruned, some (now + st.blockWindow)⟩ })
  else
    (.allowed,
     { st with
       visitors := setVisitor st.visitors ip ⟨pruned ++ [now], v.blockedUntil⟩ })

/-- Embeds one execution of the `RateLimit` handler for client `ip` at
instant `now`: a currently blocked visitor is rejected without mutation; a
missing visitor starts from an empty record; otherwise `rateLimitCore`. -/
def rateLimit (st : RateLimiterState) (ip : String) (now : Int) :
    Decision × RateLimiterState :=
  match st.visitors.lookup ip with
  | some v =>
    if isBlocked now v then (.blocked, st)
    else rateLimitCore st ip now v
  | none => rateLimitCore st ip now { requests := [], blockedUntil := none }

/-- Sequential admissions for one client at the given instants. -/
def admits (ip : String) : RateLimiterState → List Int →
    List Decision × RateLimiterState
  | st, [] => ([], st)
  | st, t :: ts =>
    let p := rateLimit st ip t
    let q := admits ip p.2 ts
    (p.1 :: q.1, q.2)

/-! ## Theorems -/

/-- C10: the statistics invariant — the total scan count never decreases
and the positive-detection count stays at most the total scan count —
is preserved by `updateStats` (per-image record), by `updateTotalScans`
(batch aggregate record), and holds of the read-only `GetStats` snapshot. -/
theorem stats_invariant_preserved (st : Stats)
    (h : st.nsfwDetected ≤ st.totalScans) (t : Nat) (b : Bool) (c t' : Nat) :
    (st.totalScans ≤ (updateStats st t b).totalScans ∧
      (updateStats st t b).nsfwDetected ≤ (updateStats st t b).totalScans) ∧
    (st.totalScans ≤ (updateTotalScans st c t').totalScans ∧
      (updateTotalScans st c t').nsfwDetected ≤ (updateTotalScans st c t').totalScans) ∧
    (GetStats st).nsfwDetected ≤ (GetStats st).totalScans := by
  refine ⟨⟨?_, ?_⟩, ⟨?_, ?_⟩, ?_⟩
  · simp only [updateStats]
    omega
  · simp only [updateStats]
    cases b <;> simp <;> omega
  · simp only [updateTotalScans]
    omega
  · simp only [updateTotalScans]
    omega
  · simp only [GetStats]
    exact h

/-- Witness for `stats_invariant_preserved` at the state (5, 3, 10). -/
theorem stats_invariant_preserved_witness :
    (Stats.mk 5 3 10).nsfwDetected ≤ (Stats.mk 5 3 10).totalScans ∧
    ((Stats.mk 5 3 10).totalScans ≤ (updateStats (Stats.mk 5 3 10) 7 true).totalScans ∧
      (updateStats (Stats.mk 5 3 10) 7 true).nsfwDetected ≤
        (updateStats (Stats.mk 5 3 10) 7 true).totalScans) :=
  ⟨by decide, (stats_invariant_preserved (Stats.mk 5 3 10) (by decide) 7 true 2 9).1⟩

/-- C8: image-source resolution case analysis of `getImageData` — inline
base64 takes precedence (the HTTP client is not consulted), a lone URL is
fetched through `urlToBytes`, and with neither source the call fails with
the missing-image-source error. -/
theorem getImageData_resolution_cases
    (b64raw : String → Except String (List Nat))
    (httpGet httpGet' : String → Except String HTTPResp) (maxMB : Nat)
    (b64Str urlStr : String) :
    (b64Str ≠ "" →
      getImageData b64raw httpGet maxMB b64Str urlStr =
        base64ToBytes b64raw maxMB b64Str ∧
      getImageData b64raw httpGet maxMB b64Str urlStr =
        getImageData b64raw httpGet' maxMB b64Str urlStr) ∧
    (b64Str = "" → urlStr ≠ "" →
      getImageData b64raw httpGet maxMB b64Str urlStr =
        urlToBytes httpGet maxMB urlStr) ∧
    (b64Str = "" → urlStr = "" →
      getImageData b64raw httpGet maxMB b64Str urlStr =
        Except.error .missingImageSource) := by
  refine ⟨fun h => ⟨?_, ?_⟩, fun h h2 => ?_, fun h h2 => ?_⟩
  · simp [getImageData, h]
  · simp [getImageData, h]
  · simp [getImageData, h, h2]
  · simp [getImageData, h, h2]

/-- Witness for `getImageData_resolution_cases`: the three cases at
concrete requests. -/
theorem getImageData_resolution_cases_witness :
    (getImageData (fun _ => .ok [1]) (fun _ => .error "net down") 10 "aGk=" "http://x" =
      base64ToBytes (fun _ => .ok [1]) 10 "aGk=") ∧
    (getImageData (fun _ => .ok [1]) (fun _ => .error "net down") 10 "" "http://x" =
      urlToBytes (fun _ => .error "net down") 10 "http://x") ∧
    (getImageData (fun _ => .ok [1]) (fun _ => .error "net down") 10 "" "" =
      Except.error .missingImageSource) :=
  ⟨((getImageData_resolution_cases (fun _ => .ok [1]) (fun _ => .error "net down")
      (fun _ => .error "other") 10 "aGk=" "http://x").1 (by decide)).1,
   (getImageData_resolution_cases (fun _ => .ok [1]) (fun _ => .error "net down")
      (fun _ => .error "other") 10 "" "http://x").2.1 rfl (by decide),
   (getImageData_resolution_cases (fun _ => .ok [1]) (fun _ => .error "net down")
      (fun _ => .error "other") 10 "" "").2.2 rfl rfl⟩

/-- C9: a detect call naming a loaded model whose lower-cased name does not
start with "nudenet" fails with the does-not-support-detection error and
performs no image acquisition: the outcome is independent of the base64
decoder, the HTTP client, the inference collaborator and the size limit. -/
theorem detect_unsupported_no_acquisition
    (b64raw b64raw' : String → Except String (List Nat))
    (httpGet httpGet' : String → Except String HTTPResp)
    (infer infer' : String → List Nat → Except GoError ScanResponse)
    (loadedModels : List String) (maxMB maxMB' : Nat) (st : Stats)
    (req : ScanRequest) (e : Nat)
    (hcap : ¬ isDetectionCapable req.model) :
    (DetectImage b64raw httpGet infer loadedModels maxMB st req e).1 =
      .err (.notDetectionModel req.model) ∧
    DetectImage b64raw httpGet infer loadedModels maxMB st req e =
      DetectImage b64raw' httpGet' infer' loadedModels maxMB' st req e := by
  have hg : loadedModels.any
      (fun m => m == req.model && isDetectionCapable m) = false := by
    rw [List.any_eq_false]
    intro m hm
    by_cases hme : m = req.model
    · subst hme
      simp [hcap]
    · simp [hme]
  constructor <;> simp [DetectImage, hg]

/-- Witness for `detect_unsupported_no_acquisition`: detect against the
classification-only model "mobilenetv2-7". -/
theorem detect_unsupported_no_acquisition_witness :
    (DetectImage (fun _ => .ok [1]) (fun _ => .error "net down")
      (fun _ _ => .error .rateLimited) ["mobilenetv2-7", "NudeNet-320n"] 10
      (Stats.mk 0 0 0) (ScanRequest.mk "mobilenetv2-7" "aGk=" "") 5).1 =
      .err (.notDetectionModel "mobilenetv2-7") :=
  (detect_unsupported_no_acquisition (fun _ => .ok [1]) (fun _ => .ok [2])
    (fun _ => .error "net down") (fun _ => .error "other")
    (fun _ _ => .error .rateLimited) (fun _ _ => .error .ctxCanceled)
    ["mobilenetv2-7", "NudeNet-320n"] 10 11 (Stats.mk 0 0 0)
    (ScanRequest.mk "mobilenetv2-7" "aGk=" "") 5 (by decide)).1

/-- C3, evaluated at zero registered models: the `/ready` handler replies
with the fixed body status "ok" without consulting the registry, even
though `IsReady` is false there — the endpoint reports ready when the
claim says it must not. -/
theorem ready_endpoint_ignores_registry :
    Ready.status = "ok" ∧ IsReady [] = false :=
  ⟨rfl, rfl⟩

/-- C4, evaluated at a request whose inline payload decodes to 3 bytes
against a registered model: the format-validation slice `imgData[:512]`
is out of bounds and `ScanImage` panics instead of returning a result or
a structured error. -/
theorem scanImage_short_payload_panics :
    (ScanImage (fun _ => .ok [1, 2, 3]) (fun _ => .error "net down")
      (fun _ => .ok ()) (fun _ _ => .error .rateLimited)
      ["mobilenetv2-7"] 10 (Stats.mk 0 0 0)
      (ScanRequest.mk "mobilenetv2-7" "AQID" "") 5).1 =
      .panicked "runtime error: slice bounds out of range" := by
  decide

set_option maxRecDepth 4000 in
/-- C2, evaluated at one succeeding and one failing single-scan call from
zero stats: the deferred `updateStats` runs on every exit, so a successful
call raises the total scan count by 2 (deferred plus explicit update) and
a failing call (unknown model) raises it by 1 — the claim requires 1
and 0. -/
theorem scanImage_stats_per_call_miscount :
    ((ScanImage (fun _ => .ok (List.replicate 600 0)) (fun _ => .error "net down")
        (fun _ => .ok ())
        (fun _ _ => .ok (ScanResponse.mk "mobilenetv2-7" (7/10) (3/10) true (7/10) 40))
        ["mobilenetv2-7"] 10 (Stats.mk 0 0 0)
        (ScanRequest.mk "mobilenetv2-7" "AQID" "") 5).1 =
      .ok (ScanResponse.mk "mobilenetv2-7" (7/10) (3/10) true (7/10) 40)) ∧
    ((ScanImage (fun _ => .ok (List.replicate 600 0)) (fun _ => .error "net down")
        (fun _ => .ok ())
        (fun _ _ => .ok (ScanResponse.mk "mobilenetv2-7" (7/10) (3/10) true (7/10) 40))
        ["mobilenetv2-7"] 10 (Stats.mk 0 0 0)
        (ScanRequest.mk "mobilenetv2-7" "AQID" "") 5).2.totalScans = 2) ∧
    ((ScanImage (fun _ => .ok (List.replicate 600 0)) (fun _ => .error "net down")
        (fun _ => .ok ())
        (fun _ _ => .ok (ScanResponse.mk "mobilenetv2-7" (7/10) (3/10) true (7/10) 40))
        ["mobilenetv2-7"] 10 (Stats.mk 0 0 0)
        (ScanRequest.mk "unknown-model" "AQID" "") 5).1 =
      .err (.modelNotFound "unknown-model")) ∧
    ((ScanImage (fun _ => .ok (List.replicate 600 0)) (fun _ => .error "net down")
        (fun _ => .ok ())
        (fun _ _ => .ok (ScanResponse.mk "mobilenetv2-7" (7/10) (3/10) true (7/10) 40))
        ["mobilenetv2-7"] 10 (Stats.mk 0 0 0)
        (ScanRequest.mk "unknown-model" "AQID" "") 5).2.totalScans = 1) := by
  refine ⟨rfl, rfl, rfl, rfl⟩

/-- C1, evaluated at a 2-item batch (N = 2) whose second item fails base64
decoding (K = 1) from zero stats: the response holds exactly N − K = 1
result, but the total scan count rises by 2·(N − K) = 2, because each
successful item calls `updateStats` and the final `updateTotalScans` adds
the result count again — the claim requires an increase of N − K. -/
theorem scanBatch_stats_double_count :
    ((ScanBatch (fun s => if s = "good" then .ok [1, 2, 3] else .error "illegal base64 data")
        (fun _ => .error "net down")
        (fun _ _ => .ok (ScanResponse.mk "mobilenetv2-7" (7/10) (3/10) true (7/10) 40))
        ["mobilenetv2-7"] 10 (Stats.mk 0 0 0)
        (BatchScanRequest.mk "mobilenetv2-7"
          [BatchImageItem.mk "1" "good" "", BatchImageItem.mk "2" "bad" ""]) 90).1 =
      .ok (BatchScanResponse.mk [BatchScanResult.mk "1" (7/10) true 40])) ∧
    ((ScanBatch (fun s => if s = "good" then .ok [1, 2, 3] else .error "illegal base64 data")
        (fun _ => .error "net down")
        (fun _ _ => .ok (ScanResponse.mk "mobilenetv2-7" (7/10) (3/10) true (7/10) 40))
        ["mobilenetv2-7"] 10 (Stats.mk 0 0 0)
        (BatchScanRequest.mk "mobilenetv2-7"
          [BatchImageItem.mk "1" "good" "", BatchImageItem.mk "2" "bad" ""]) 90).2.totalScans = 2) := by
  refine ⟨rfl, rfl⟩

set_option maxRecDepth 8000 in
/-- C6 counterexample: 21 consecutive inference invocations for the
registered model "mobilenetv2-7" from the bucket `NewONNXRuntimeService`
configures — the first 20 succeed and the 21st fails with the rate-limit
error, so the inference path does apply a global rate gate. -/
theorem inference_rate_gate_counterexample :
    ((runInferences (7/10) [("mobilenetv2-7", ModelKind.standard)] false
        "mobilenetv2-7" [1] initialLimiter 21).1.getLast? =
      some (.error .rateLimited)) ∧
    (((runInferences (7/10) [("mobilenetv2-7", ModelKind.standard)] false
        "mobilenetv2-7" [1] initialLimiter 21).1.take 20).all
      (fun r => match r with | .ok _ => true | .error _ => false) = true) := by
  refine ⟨rfl, rfl⟩

/-- C6 amended: the ONNX inference path begins with a global token-bucket
gate (burst 20, installed by `NewONNXRuntimeService`), and an invocation
of `preprocessAndRunInference` fails with the rate-limit error exactly
when the bucket holds no token at the call — independently of the model
named or any per-client admission already granted. -/
theorem inference_rate_gate_characterization (threshold : Rat)
    (onnxModels : List (String × ModelKind)) (stdinDecodes : Bool)
    (l : LimiterState) (modelName : String) (imageData : List Nat) :
    ((preprocessAndRunInference threshold onnxModels stdinDecodes l
        modelName imageData).1 = .error .rateLimited) ↔ l.tokens = 0 := by
  unfold preprocessAndRunInference limiterAllow
  by_cases h : l.tokens = 0
  · simp [h]
  · cases honnx : onnxModels.lookup modelName with
    | none => simp [honnx, h]
    | some kind =>
      cases kind <;> cases stdinDecodes <;>
        simp [honnx, postprocessingStandard, postprocessingNudeNet, h]

/-! ### Rate-limiter lemmas -/

/-- Looking up the key just set finds the new visitor. -/
theorem lookup_setVisitor_self (m : List (String × Visitor)) (ip : String)
    (v : Visitor) : (setVisitor m ip v).lookup ip = some v := by
  induction m with
  | nil => simp [setVisitor, List.lookup]
  | cons kv rest ih =>
    obtain ⟨k, w⟩ := kv
    by_cases h : k = ip
    · subst h
      simp [setVisitor, List.lookup]
    · have hk : (ip == k) = false := beq_eq_false_iff_ne.mpr (Ne.symm h)
      simp [setVisitor, h, List.lookup, hk, ih]

/-- A request from a visitor that is not currently blocked (a missing
visitor starts empty and unblocked) runs the prune-and-compare tail. -/
theorem rateLimit_eq_core (st : RateLimiterState) (ip : String) (now : Int)
    (v : Visitor) (hv : (st.visitors.lookup ip).getD ⟨[], none⟩ = v)
    (hb : isBlocked now v = false) :
    rateLimit st ip now = rateLimitCore st ip now v := by
  unfold rateLimit
  cases hl : st.visitors.lookup ip with
  | none =>
    rw [hl] at hv
    simp at hv
    rw [hv]
  | some w =>
    rw [hl] at hv
    simp at hv
    subst hv
    simp [hb]

/-- A request from a visitor whose block deadline lies in the future is
rejected and mutates nothing. -/
theorem rateLimit_blocked_frozen (st : RateLimiterState) (ip : String)
    (now b : Int) (v : Visitor) (hv : st.visitors.lookup ip = some v)
    (hvb : v.blockedUntil = some b) (hnow : now < b) :
    rateLimit st ip now = (.blocked, st) := by
  have hb : isBlocked now v = true := by
    simp [isBlocked, hvb]
    omega
  unfold rateLimit
  rw [hv]
  simp [hb]

/-- Every admit attempt before the block deadline is rejected and the
state never changes. -/
theorem admits_all_blocked (ip : String) (b : Int) :
    ∀ (attempts : List Int) (st : RateLimiterState) (v : Visitor),
      st.visitors.lookup ip = some v → v.blockedUntil = some b →
      (∀ a ∈ attempts, a < b) →
      (admits ip st attempts).1 = List.replicate attempts.length .blocked ∧
      (admits ip st attempts).2 = st := by
  intro attempts
  induction attempts with
  | nil => intro st v hv hvb hatt; exact ⟨rfl, rfl⟩
  | cons a rest ih =>
    intro st v hv hvb hatt
    have hstep := rateLimit_blocked_frozen st ip a b v hv hvb
      (hatt a (List.mem_cons_self a rest))
    have hrest := ih st v hv hvb (fun x hx => hatt x (List.mem_cons_of_mem a hx))
    simp [admits, hstep, hrest.1, hrest.2, List.replicate_succ]

/-- The prune-and-compare tail admits and appends `now` when the pruned
record is below the limit. -/
theorem rateLimitCore_allowed (st : RateLimiterState) (ip : String)
    (now : Int) (v : Visitor)
    (hlt : (v.requests.filter (fun x => decide (now - st.window < x))).length < st.limit) :
    rateLimitCore st ip now v =
      (.allowed,
       { st with
         visitors := setVisitor st.visitors ip ⟨v.requests.filter (fun x => decide (now - st.window < x)) ++ [now], v.blockedUntil⟩ }) := by
  unfold rateLimitCore
  rw [if_neg (Nat.not_le.mpr hlt)]

/-- The prune-and-compare tail blocks and sets the deadline
`now + blockWindow` when the pruned record is at or above the limit. -/
theorem rateLimitCore_blocked (st : RateLimiterState) (ip : String)
    (now : Int) (v : Visitor)
    (hge : st.limit ≤ (v.requests.filter (fun x => decide (now - st.window < x))).length) :
    rateLimitCore st ip now v =
      (.blocked,
       { st with
         visitors := setVisitor st.visitors ip ⟨v.requests.filter (fun x => decide (now - st.window < x)), some (now + st.blockWindow)⟩ }) := by
  unfold rateLimitCore
  rw [if_pos hge]

/-- Requests all lying inside the window ending at `t` are each admitted:
the pruning never drops a timestamp, the record grows to `acc ++ ts`, the
block deadline stays unset and the configuration is untouched. -/
theorem admits_within_window_allowed (ip : String) (t : Int) :
    ∀ (ts : List Int) (st : RateLimiterState) (acc : List Int),
      ((st.visitors.lookup ip).getD ⟨[], none⟩ = ⟨acc, none⟩) →
      acc.length + ts.length ≤ st.limit →
      (∀ x ∈ acc, t - st.window < x) →
      (∀ x ∈ ts, t - st.window < x ∧ x ≤ t) →
      (admits ip st ts).1 = List.replicate ts.length .allowed ∧
      (((admits ip st ts).2.visitors.lookup ip).getD ⟨[], none⟩ = ⟨acc ++ ts, none⟩) ∧
      (admits ip st ts).2.limit = st.limit ∧
      (admits ip st ts).2.window = st.window ∧
      (admits ip st ts).2.blockWindow = st.blockWindow := by
  intro ts
  induction ts with
  | nil =>
    intro st acc hv hlen hacc hts
    exact ⟨rfl, by simpa using hv, rfl, rfl, rfl⟩
  | cons n rest ih =>
    intro st acc hv hlen hacc hts
    have hn := hts n (List.mem_cons_self n rest)
    have hfilter : acc.filter (fun x => decide (n - st.window < x)) = acc := by
      apply List.filter_eq_self.mpr
      intro x hx
      have h1 := hacc x hx
      exact decide_eq_true (by omega)
    have hlt : acc.length < st.limit := by
      simp only [List.length_cons] at hlen
      omega
    have hb : isBlocked n (⟨acc, none⟩ : Visitor) = false := rfl
    have hstep : rateLimit st ip n =
        (.allowed,
         { st with visitors := setVisitor st.visitors ip ⟨acc ++ [n], none⟩ }) := by
      rw [rateLimit_eq_core st ip n ⟨acc, none⟩ hv hb,
        rateLimitCore_allowed st ip n ⟨acc, none⟩ (by simpa [hfilter] using hlt)]
      simp [hfilter]
    have hrest := ih
      { st with visitors := setVisitor st.visitors ip ⟨acc ++ [n], none⟩ }
      (acc ++ [n])
      (by simp [lookup_setVisitor_self])
      (by simp at hlen ⊢; omega)
      (by
        intro x hx
        rcases List.mem_append.mp hx with hx1 | hx2
        · exact hacc x hx1
        · simp at hx2
          subst hx2
          exact hn.1)
      (fun x hx => hts x (List.mem_cons_of_mem n hx))
    refine ⟨?_, ?_, ?_, ?_, ?_⟩
    · simp [admits, hstep, hrest.1, List.replicate_succ]
    · simpa [admits, hstep, List.append_assoc] using hrest.2.1
    · simpa [admits, hstep] using hrest.2.2.1
    · simpa [admits, hstep] using hrest.2.2.2.1
    · simpa [admits, hstep] using hrest.2.2.2.2

/-- C5: starting from a client unknown to the limiter, `limit` admit calls
at instants inside the window ending at `t` are all Allowed; the next
admit call at `t` (same window) is Blocked; and every further admit call
before `t + blockWindow` is Blocked, however many are made. -/
theorem rate_limit_block_and_persist (ip : String) (st0 : RateLimiterState)
    (t : Int) (ts attempts : List Int)
    (hfresh : st0.visitors.lookup ip = none)
    (hlen : ts.length = st0.limit)
    (hts : ∀ x ∈ ts, t - st0.window < x ∧ x ≤ t)
    (hatt : ∀ a ∈ attempts, t ≤ a ∧ a < t + st0.blockWindow) :
    (admits ip st0 ts).1 = List.replicate st0.limit .allowed ∧
    (rateLimit (admits ip st0 ts).2 ip t).1 = .blocked ∧
    (admits ip (rateLimit (admits ip st0 ts).2 ip t).2 attempts).1 =
      List.replicate attempts.length .blocked := by
  obtain ⟨hdec, hlook, hlim, hwin, hblockw⟩ :=
    admits_within_window_allowed ip t ts st0 [] (by simp [hfresh])
      (by simpa using hlen.le) (fun x hx => absurd hx (List.not_mem_nil x)) hts
  have hfilA : ts.filter (fun x => decide (t - (admits ip st0 ts).2.window < x)) = ts := by
    rw [hwin]
    exact List.filter_eq_self.mpr (fun x hx => decide_eq_true (hts x hx).1)
  have hgeA : (admits ip st0 ts).2.limit ≤
      (ts.filter (fun x => decide (t - (admits ip st0 ts).2.window < x))).length := by
    rw [hfilA, hlim, ← hlen]
  have hcore := rateLimit_eq_core (admits ip st0 ts).2 ip t ⟨ts, none⟩
    (by simpa using hlook) rfl
  have hblocked := rateLimitCore_blocked (admits ip st0 ts).2 ip t ⟨ts, none⟩ hgeA
  have hrla := hcore.trans hblocked
  refine ⟨by rw [← hlen]; exact hdec, by rw [hrla], ?_⟩
  have hlookB : (rateLimit (admits ip st0 ts).2 ip t).2.visitors.lookup ip =
      some ⟨ts.filter (fun x => decide (t - (admits ip st0 ts).2.window < x)),
        some (t + (admits ip st0 ts).2.blockWindow)⟩ := by
    rw [hrla]
    exact lookup_setVisitor_self _ _ _
  exact (admits_all_blocked ip (t + st0.blockWindow) attempts
    (rateLimit (admits ip st0 ts).2 ip t).2 _ hlookB (by simp [hblockw])
    (fun a ha => (hatt a ha).2)).1

/-- Witness for `rate_limit_block_and_persist`: limit 3, window 60 and
block window 3600; admits at 50, 60, 70, blocked at 100, and attempts at
100, 1800 and 3699 all rejected. -/
theorem rate_limit_block_and_persist_witness :
    (admits "10.0.0.1" ⟨[], 3, 60, 3600⟩ [50, 60, 70]).1 =
      List.replicate 3 .allowed ∧
    (rateLimit (admits "10.0.0.1" ⟨[], 3, 60, 3600⟩ [50, 60, 70]).2
      "10.0.0.1" 100).1 = .blocked ∧
    (admits "10.0.0.1" (rateLimit (admits "10.0.0.1" ⟨[], 3, 60, 3600⟩
      [50, 60, 70]).2 "10.0.0.1" 100).2 [100, 1800, 3699]).1 =
      List.replicate 3 .blocked :=
  rate_limit_block_and_persist "10.0.0.1" ⟨[], 3, 60, 3600⟩ 100 [50, 60, 70]
    [100, 1800, 3699] rfl rfl (by decide) (by decide)

/-- C7: a client whose block deadline has passed and whose recorded
timestamps all predate the window is admitted on the next call, and the
stale timestamps are pruned before the limit comparison — the stored
record afterwards is exactly the new instant. -/
theorem rate_limit_unblock_prunes_stale (ip : String)
    (st0 : RateLimiterState) (now b : Int) (ts : List Int)
    (hv : st0.visitors.lookup ip = some ⟨ts, some b⟩)
    (hexp : b ≤ now)
    (hstale : ∀ x ∈ ts, x ≤ now - st0.window)
    (hpos : 1 ≤ st0.limit) :
    (rateLimit st0 ip now).1 = .allowed ∧
    (rateLimit st0 ip now).2.visitors.lookup ip = some ⟨[now], some b⟩ := by
  have hb : isBlocked now (⟨ts, some b⟩ : Visitor) = false := by
    simp [isBlocked]
    omega
  have hcore := rateLimit_eq_core st0 ip now ⟨ts, some b⟩ (by simp [hv]) hb
  have hfil : ts.filter (fun x => decide (now - st0.window < x)) = [] := by
    apply List.filter_eq_nil_iff.mpr
    intro x hx
    have := hstale x hx
    simpa using (by omega : ¬ (now - st0.window < x))
  have hallow := rateLimitCore_allowed st0 ip now ⟨ts, some b⟩
    (by rw [hfil]; simpa using hpos)
  constructor
  · rw [hcore, hallow]
  · rw [hcore, hallow]
    simp [lookup_setVisitor_self, hfil]

/-- Witness for `rate_limit_unblock_prunes_stale`: the Scenario-B shape —
blocked until 3600 with stale stamps 0 and 30, admitted at 3601 with a
fresh single-stamp record. -/
theorem rate_limit_unblock_prunes_stale_witness :
    (rateLimit ⟨[("10.0.0.1", ⟨[0, 30], some 3600⟩)], 100, 60, 3600⟩
      "10.0.0.1" 3601).1 = .allowed ∧
    (rateLimit ⟨[("10.0.0.1", ⟨[0, 30], some 3600⟩)], 100, 60, 3600⟩
      "10.0.0.1" 3601).2.visitors.lookup "10.0.0.1" =
      some ⟨[3601], some 3600⟩ :=
  rate_limit_unblock_prunes_stale "10.0.0.1"
    ⟨[("10.0.0.1", ⟨[0, 30], some 3600⟩)], 100, 60, 3600⟩ 3601 3600 [0, 30]
    rfl (by decide) (by decide) (by decide)

end NFWS
